import Mathlib

/-!
Shallow embedding of `src/main.rs` of `money_manager_export-rs`, a CLI that
exports Money Manager expense transactions for a resolved date range.

The program's date handling is delegated to the `chrono` crate (the source
comment at `main.rs:45` names chrono-0.4.23), so the calendar part of this
file models the chrono functions the program calls:

* `NaiveDate::from_ymd_opt` — validity check plus the year bounds of
  chrono-0.4.23 (`MIN_YEAR = i32::MIN >> 13 = -262144`,
  `MAX_YEAR = i32::MAX >> 13 = 262143`);
* `signed_duration_since(..).num_days()` — modelled as a difference of
  proleptic-Gregorian day numbers (`toNumDays`, chrono's
  `num_days_from_ce`), computed with floor (Euclidean) division exactly as
  chrono does for the leap counts;
* `NaiveDate::to_string` (`%Y-%m-%d` Display: four zero-padded year digits
  for years 0..=9999, otherwise an explicit sign and `{:+05}` formatting);
* `NaiveDate::parse_from_str(_, "%Y-%m-%d")` as chrono's parser actually
  behaves: Unicode whitespace is skipped before every numeric field, `%Y`
  accepts an optional sign — at most four digits when unsigned, unlimited
  digits after an explicit `+`/`-` — `%m` and `%d` scan at most two digits,
  the dash literals must match exactly (no whitespace skip), the whole
  input must be consumed, and the resolved triple goes through the
  `from_ymd_opt` validity check.

Floating-point amounts (`f64`) are modelled by exact rationals; every
concrete input used in a theorem about `process_amount` is a dyadic
rational at which the binary64 computation of the source is exact.
-/

/-- Leap-year predicate of the proleptic Gregorian calendar, as computed by
chrono from the year flags: `year % 4 == 0 && (year % 100 != 0 || year % 400 == 0)`. -/
def isLeapYear (y : Int) : Bool :=
  decide (y % 4 = 0 ∧ (y % 100 ≠ 0 ∨ y % 400 = 0))

/-- Number of days of month `m` (1..12) of year `y`: the month-length table
chrono validates `from_ymd_opt` against. `0` for an out-of-range month. -/
def monthLength (y : Int) (m : Nat) : Nat :=
  match m with
  | 1 => 31
  | 2 => if isLeapYear y then 29 else 28
  | 3 => 31
  | 4 => 30
  | 5 => 31
  | 6 => 30
  | 7 => 31
  | 8 => 31
  | 9 => 30
  | 10 => 31
  | 11 => 30
  | 12 => 31
  | _ => 0

/-- A calendar date, the model of `chrono::NaiveDate`. -/
structure Date where
  year : Int
  month : Nat
  day : Nat
deriving DecidableEq

/-- Validity of a year/month/day triple for `NaiveDate::from_ymd_opt` in
chrono-0.4.23: month and day in range for the (leap-aware) month length, and
the year within `i32::MIN >> 13 = -262144` and `i32::MAX >> 13 = 262143`. -/
def Date.Valid (d : Date) : Prop :=
  1 ≤ d.month ∧ d.month ≤ 12 ∧ 1 ≤ d.day ∧ d.day ≤ monthLength d.year d.month ∧
    -262144 ≤ d.year ∧ d.year ≤ 262143

instance (d : Date) : Decidable d.Valid := by
  unfold Date.Valid
  infer_instance

/-- Model of `chrono::NaiveDate::from_ymd_opt`. -/
def from_ymd_opt (y : Int) (m d : Nat) : Option Date :=
  if Date.Valid ⟨y, m, d⟩ then some ⟨y, m, d⟩ else none

/-- Day number of January 1 of year `y` counted from the epoch of chrono's
`num_days_from_ce` (day 1 = 0001-01-01), leap days counted by floor division
as chrono does. -/
def daysBeforeYear (y : Int) : Int :=
  365 * (y - 1) + (y - 1) / 4 - (y - 1) / 100 + (y - 1) / 400

/-- Days of year `y` that precede month `m`: chrono's cumulative day-of-year
table, with the leap-day adjustment for months after February. -/
def daysBeforeMonth (y : Int) (m : Nat) : Nat :=
  (match m with
   | 1 => 0
   | 2 => 31
   | 3 => 59
   | 4 => 90
   | 5 => 120
   | 6 => 151
   | 7 => 181
   | 8 => 212
   | 9 => 243
   | 10 => 273
   | 11 => 304
   | 12 => 334
   | _ => 0)
  + (if 3 ≤ m ∧ isLeapYear y = true then 1 else 0)

/-- Proleptic-Gregorian day number of a date (chrono's `num_days_from_ce`);
only differences of this function are used, matching
`signed_duration_since(..).num_days()`. -/
def toNumDays (d : Date) : Int :=
  daysBeforeYear d.year + (daysBeforeMonth d.year d.month : Int) + (d.day : Int)

/-- Model of `get_days_from_month` (`main.rs:46-63`) with its abort branches
made explicit: `none` models a panic of the `expect` on the first-of-next-month
construction (month 12 rolls to January of `year + 1`), of the `unwrap` on the
first-of-this-month construction, or of the `i64` to `u32` `try_into`. -/
def get_days_from_month? (year : Int) (month : Nat) : Option Nat :=
  (from_ymd_opt (if month = 12 then year + 1 else year)
      (if month = 12 then 1 else month + 1) 1).bind fun next =>
    (from_ymd_opt year month 1).bind fun first =>
      if 0 ≤ toNumDays next - toNumDays first ∧
          toNumDays next - toNumDays first ≤ 4294967295 then
        some (toNumDays next - toNumDays first).toNat
      else none

/-- `get_days_from_month` as the program uses it on inputs where no abort
branch is reachable (the `getD 0` default is dead code there, see the
theorems about `get_days_from_month?`). -/
def get_days_from_month (year : Int) (month : Nat) : Nat :=
  (get_days_from_month? year month).getD 0

/-- Decimal digit to character, for the zero-padded `%Y-%m-%d` rendering. -/
def digitChar (n : Nat) : Char :=
  match n with
  | 0 => '0'
  | 1 => '1'
  | 2 => '2'
  | 3 => '3'
  | 4 => '4'
  | 5 => '5'
  | 6 => '6'
  | 7 => '7'
  | 8 => '8'
  | 9 => '9'
  | _ => '*'

/-- Character to decimal digit; `none` on a non-digit, as chrono's numeric
scanner accepts only ASCII digits. -/
def charVal? (c : Char) : Option Nat :=
  if c = '0' then some 0
  else if c = '1' then some 1
  else if c = '2' then some 2
  else if c = '3' then some 3
  else if c = '4' then some 4
  else if c = '5' then some 5
  else if c = '6' then some 6
  else if c = '7' then some 7
  else if c = '8' then some 8
  else if c = '9' then some 9
  else none

/-- Two zero-padded decimal digits (for months and days, always below 100). -/
def pad2L (n : Nat) : List Char :=
  [digitChar (n / 10), digitChar (n % 10)]

/-- Four zero-padded decimal digits (for years in 0..=9999). -/
def pad4L (n : Nat) : List Char :=
  [digitChar (n / 1000), digitChar (n / 100 % 10), digitChar (n / 10 % 10), digitChar (n % 10)]

/-- Decimal digits of `n`, zero-padded to at least four digits: the digit
part of chrono's `{:+05}` year formatting. Chrono years stay below a
million, so at most six digits occur. -/
def digitsMin4 (n : Nat) : List Char :=
  if n < 10000 then pad4L n
  else if n < 100000 then digitChar (n / 10000) :: pad4L (n % 10000)
  else digitChar (n / 100000) :: digitChar (n / 10000 % 10) :: pad4L (n % 10000)

/-- The year part of chrono's `NaiveDate` Display: four zero-padded digits
for 0..=9999, otherwise (per ISO 8601) an explicit sign followed by the
`{:+05}` digits. -/
def yearChars (y : Int) : List Char :=
  if 0 ≤ y ∧ y ≤ 9999 then pad4L y.toNat
  else (if y < 0 then ['-'] else ['+']) ++ digitsMin4 y.natAbs

/-- Model of `NaiveDate::to_string` (the `%Y-%m-%d` Display). -/
def dateToString (dt : Date) : String :=
  String.mk (yearChars dt.year ++ ['-'] ++ pad2L dt.month ++ ['-'] ++ pad2L dt.day)

/-- Greedy digit scanner: consume up to `fuel` further digits, accumulating
the value left to right; stops at the first non-digit or when the budget is
exhausted (chrono's `scan::number`). -/
def takeDigitsGo : Nat → Nat → List Char → Nat × List Char
  | _, acc, [] => (acc, [])
  | 0, acc, c :: cs => (acc, c :: cs)
  | fuel + 1, acc, c :: cs =>
    match charVal? c with
    | some v => takeDigitsGo fuel (10 * acc + v) cs
    | none => (acc, c :: cs)

/-- Consume at least one and at most `width` digits, returning their value
and the remaining input; `none` if the input does not start with a digit. -/
def takeDigits (width : Nat) (cs : List Char) : Option (Nat × List Char) :=
  match cs with
  | [] => none
  | c :: rest =>
    match charVal? c with
    | none => none
    | some v => some (takeDigitsGo (width - 1) v rest)

/-- The Unicode `White_Space` set that Rust's `char::is_whitespace` (used by
the `trim_left` chrono applies before each numeric field) recognizes. -/
def isWhitespaceChar (c : Char) : Bool :=
  decide ((9 ≤ c.toNat ∧ c.toNat ≤ 13) ∨ c.toNat = 32 ∨ c.toNat = 133 ∨ c.toNat = 160 ∨
    c.toNat = 5760 ∨ (8192 ≤ c.toNat ∧ c.toNat ≤ 8202) ∨ c.toNat = 8232 ∨ c.toNat = 8233 ∨
    c.toNat = 8239 ∨ c.toNat = 8287 ∨ c.toNat = 12288)

/-- `str::trim_left`: drop leading whitespace, as chrono does before every
numeric format item. -/
def skipWhite : List Char → List Char
  | [] => []
  | c :: cs => if isWhitespaceChar c then skipWhite cs else c :: cs

/-- Unbounded greedy digit scan (chrono's `scan::number` with no effective
maximum, used after an explicit year sign). -/
def takeDigitsAll : Nat → List Char → Nat × List Char
  | acc, [] => (acc, [])
  | acc, c :: cs =>
    match charVal? c with
    | some v => takeDigitsAll (10 * acc + v) cs
    | none => (acc, c :: cs)

/-- Unbounded digit scan requiring at least one digit. -/
def takeDigitsAll1 (cs : List Char) : Option (Nat × List Char) :=
  match cs with
  | [] => none
  | c :: rest =>
    match charVal? c with
    | none => none
    | some v => some (takeDigitsAll v rest)

/-- Chrono's parsing of the signed `%Y` item (after the whitespace skip): a
leading `-` or `+` admits unlimited digits; with no sign at most four digits
are scanned. -/
def parseYear (cs : List Char) : Option (Int × List Char) :=
  match cs with
  | [] => none
  | c :: rest =>
    if c = '-' then
      (takeDigitsAll1 rest).map fun p => (-(p.1 : Int), p.2)
    else if c = '+' then
      (takeDigitsAll1 rest).map fun p => ((p.1 : Int), p.2)
    else
      (takeDigits 4 cs).map fun p => ((p.1 : Int), p.2)

/-- Chrono's matching of the literal dash items of the format: the next
character must be the dash itself, with no whitespace skip. -/
def expectDash : List Char → Option (List Char)
  | [] => none
  | c :: r => if c = '-' then some r else none

/-- Model of `NaiveDate::parse_from_str(s, "%Y-%m-%d")`: whitespace skip and
signed year scan (`parseYear`), literal dash, whitespace skip and up to two
month digits, literal dash, whitespace skip and up to two day digits, end of
input, then the `from_ymd_opt` validity check (out-of-range month or day
rejected). -/
def parseFromStrYmd (s : String) : Option Date :=
  (parseYear (skipWhite s.data)).bind fun yr =>
    (expectDash yr.2).bind fun r2 =>
      (takeDigits 2 (skipWhite r2)).bind fun mr =>
        (expectDash mr.2).bind fun r4 =>
          (takeDigits 2 (skipWhite r4)).bind fun dr =>
            if dr.2 = [] then from_ymd_opt yr.1 mr.1 dr.1 else none

/-- ASCII lowercasing, the model of `str::to_lowercase` on the ASCII month
vocabulary the program compares against (`main.rs:134`). -/
def toLowerStr (s : String) : String :=
  String.mk (s.data.map Char.toLower)

/-- The month-name table built by `parse_month` (`main.rs:91-130`), in
insertion order; all keys are distinct, so list lookup models the `HashMap`. -/
def months : List (String × Nat) :=
  [("jan", 1), ("january", 1), ("ene", 1), ("enero", 1),
   ("feb", 2), ("february", 2), ("febrero", 2),
   ("mar", 3), ("march", 3), ("marzo", 3),
   ("apr", 4), ("april", 4), ("abr", 4), ("abril", 4),
   ("may", 5), ("mayo", 5),
   ("jun", 6), ("june", 6), ("junio", 6),
   ("jul", 7), ("july", 7), ("julio", 7),
   ("aug", 8), ("august", 8), ("ago", 8), ("agosto", 8),
   ("sep", 9), ("september", 9), ("septiembre", 9),
   ("oct", 10), ("october", 10), ("octubre", 10),
   ("nov", 11), ("november", 11), ("noviembre", 11),
   ("dec", 12), ("december", 12), ("dic", 12), ("diciembre", 12)]

/-- Association-list lookup, the model of `HashMap::contains_key` plus `get`. -/
def lookupMonth (k : String) : List (String × Nat) → Option Nat
  | [] => none
  | (a, v) :: t => if k = a then some v else lookupMonth k t

/-- Model of Rust `str::parse::<u8>`: an optional leading plus sign, then one
or more ASCII digits whose value fits in `u8` (0..=255); anything else is an
error, mapped to `none` by the `.ok()` in the source. -/
def parseU8 (s : String) : Option Nat :=
  let cs := match s.data with
    | '+' :: rest => rest
    | l => l
  match cs with
  | [] => none
  | _ =>
    if cs.all (fun c => (charVal? c).isSome) then
      if cs.foldl (fun a c => 10 * a + (charVal? c).getD 0) 0 ≤ 255 then
        some (cs.foldl (fun a c => 10 * a + (charVal? c).getD 0) 0)
      else none
    else none

/-- Model of `parse_month` (`main.rs:80-147`): `none` both when no month was
given on the command line and when the token is unrecognized; otherwise the
case-insensitive name lookup, falling back to numeric parsing filtered to
1..=12. -/
def parse_month (month : Option String) : Option Nat :=
  match month with
  | none => none
  | some month_str =>
    match lookupMonth (toLowerStr month_str) months with
    | some m => some m
    | none => (parseU8 month_str).filter fun v => decide (1 ≤ v ∧ v ≤ 12)

/-- Model of `process_category` (`main.rs:148-151`): trim whitespace. -/
def process_category (category : String) : String :=
  category.trim

/-- Model of `process_name` (`main.rs:154-156`): trim whitespace. -/
def process_name (name : String) : String :=
  name.trim

/-- Rust `f64::fract`: `self - self.trunc()`, truncation toward zero. -/
def fract (x : ℚ) : ℚ :=
  x - (if 0 ≤ x then (⌊x⌋ : ℚ) else (⌈x⌉ : ℚ))

/-- Rust `f64::round`: nearest integer, ties rounded away from zero. -/
def roundTiesAway (x : ℚ) : Int :=
  if 0 ≤ x then ⌊x + 1 / 2⌋ else ⌈x - 1 / 2⌉

/-- Rust `format!("{:02}", v)` for an integral value: the decimal rendering,
left-padded with zeros to a minimum width of two. -/
def fmt02 (n : Int) : String :=
  if 0 ≤ n ∧ n < 10 then "0" ++ toString n else toString n

/-- Model of `process_amount` (`main.rs:159-168`): integer part from
`floor`, decimal part `format!("{:02}", (100.0 * amount.fract()).round())`,
joined with a comma. The `f64` amount is modelled by an exact rational. -/
def process_amount (amount : ℚ) : String :=
  toString ⌊amount⌋ ++ "," ++ fmt02 (roundTiesAway (100 * fract amount))

/-- Split a character list at every dash, keeping empty pieces, as Rust
`str::split("-")` does; `rsplit` is this followed by a reversal. -/
def splitOnDash : List Char → List (List Char)
  | [] => [[]]
  | c :: cs =>
    match splitOnDash cs with
    | [] => [[]]
    | h :: t => if c = '-' then [] :: h :: t else (c :: h) :: t

/-- Model of `process_date` (`main.rs:170-173`): `date.rsplit("-")` collected
and joined with slashes — the dash-separated pieces in reverse order, with no
validation of their number or content. -/
def process_date (date : String) : String :=
  String.mk (List.intercalate ['/'] (splitOnDash date.data).reverse)

/-- Model of `process_payment_method` (`main.rs:175-187`): the fixed
name-to-code table with the `"INVALID"` sentinel for anything else. -/
def process_payment_method (pay_method : String) : String :=
  match pay_method with
  | "Tickets" => "Ti"
  | "Transferencia" => "T"
  | "Efectivo" => "E"
  | "T. Débito" => "TD"
  | "T. Crédito" => "TC"
  | "PayPal" => "P"
  | _ => "INVALID"

/-- The two fatal date errors of `init_config`, carrying the offending raw
string; in the source each prints a diagnostic and calls
`std::process::exit(1)`. -/
inductive DateError where
  | invalidStart (raw : String)
  | invalidEnd (raw : String)
deriving DecidableEq

/-- Default start date when neither a month nor a start date is given
(`main.rs:258-271`): the first day of the previous calendar month. -/
def defaultStartDate (now : Date) : Date :=
  if now.month = 1 then ⟨now.year - 1, 12, 1⟩ else ⟨now.year, now.month - 1, 1⟩

/-- The string `init_config` checks as the start date (`main.rs:256-287`):
the explicit one, or the serialized default start. -/
def startString (start_date : Option String) (now : Date) : String :=
  match start_date with
  | none => dateToString (defaultStartDate now)
  | some s => s

/-- The string `init_config` checks as the end date (`main.rs:289-310`): the
given one, or the serialized last day of the month of the parsed start. -/
def endString (end_date : Option String) (ps : Date) : String :=
  match end_date with
  | none => dateToString ⟨ps.year, ps.month, get_days_from_month ps.year ps.month⟩
  | some s => s

/-- The date-resolution logic of `init_config` (`main.rs:220-324`) on the
resolved `NaiveDate` values: month mode first; otherwise the explicit or
defaulted start string is parsed (fatal on failure), then the explicit or
defaulted end string (fatal on failure). Defaulted dates are serialized and
reparsed exactly as the source does via `config.start_date`/`config.end_date`.
The file-readability check that precedes this in the source is filesystem
work outside the model and is taken to pass. -/
def init_config_dates (start_date end_date month : Option String) (now : Date) :
    Except DateError (Date × Date) :=
  match parse_month month with
  | some m =>
    .ok (⟨now.year, m, 1⟩, ⟨now.year, m, get_days_from_month now.year m⟩)
  | none =>
    match parseFromStrYmd (startString start_date now) with
    | none => .error (.invalidStart (startString start_date now))
    | some ps =>
      match parseFromStrYmd (endString end_date ps) with
      | none => .error (.invalidEnd (endString end_date ps))
      | some pe => .ok (ps, pe)

/-- The `start_date`/`end_date` strings `init_config` stores in `Config`: on
every success path the source re-serializes the parsed `NaiveDate`
(`main.rs:241,249,287,320`). -/
def init_config (start_date end_date month : Option String) (now : Date) :
    Except DateError (String × String) :=
  (init_config_dates start_date end_date month now).map fun p =>
    (dateToString p.1, dateToString p.2)

/-- An ASCII single quote, used by the diagnostics below. -/
def squote : String :=
  String.mk [Char.ofNat 39]

/-- The diagnostic of `main.rs:279-283`, naming the offending raw start
string and the expected format. -/
def startErrMsg (raw : String) : String :=
  "Invalid start date provided: " ++ squote ++ raw ++ squote ++
    ". Please use format YYYY-MM-DD and a valid date"

/-- The diagnostic of `main.rs:312-316`, naming the offending raw end string
and the expected format. -/
def endErrMsg (raw : String) : String :=
  "Invalid end date provided: " ++ squote ++ raw ++ squote ++
    ". Please use format YYYY-MM-DD and a valid date"

/-- A raw transaction row as produced by the query of `query_and_print`
(`main.rs:198-212`); the `f64` amount is modelled by an exact rational. -/
structure RawRow where
  timestamp : Int
  ztxdatestr : String
  category : String
  content : String
  amount : ℚ
  payMethod : String
deriving DecidableEq

/-- One report line (`main.rs:211`): the five processed fields joined with
semicolons. -/
def formatRow (r : RawRow) : String :=
  process_date r.ztxdatestr ++ ";" ++ process_category r.category ++ ";" ++
    process_name r.content ++ ";" ++ process_amount r.amount ++ ";" ++
    process_payment_method r.payMethod

/-- The fixed header line (`main.rs:200`). -/
def header : String :=
  "fecha;categoría;comentario;importe;forma pago"

/-- Exactly two decimal digits of `n < 100`. -/
def twoDigits (n : Nat) : String :=
  String.mk [digitChar (n / 10), digitChar (n % 10)]

/-- Round to nearest with ties to even, the rounding Rust `{:.2}` applies to
the exact value being displayed. -/
def roundTiesEven (x : ℚ) : Int :=
  if x - ⌊x⌋ < 1 / 2 then ⌊x⌋
  else if 1 / 2 < x - ⌊x⌋ then ⌊x⌋ + 1
  else if ⌊x⌋ % 2 = 0 then ⌊x⌋ else ⌊x⌋ + 1

/-- Model of `format!("{:.2}", x)`: two fraction digits after a period. -/
def formatFixed2 (x : ℚ) : String :=
  (if roundTiesEven (100 * x) < 0 then "-" else "") ++
    toString ((roundTiesEven (100 * x)).natAbs / 100) ++ "." ++
    twoDigits ((roundTiesEven (100 * x)).natAbs % 100)

/-- The total line (`main.rs:215`): the sum of the raw numeric amounts, with
a period decimal separator and two fraction digits. -/
def totalLine (rows : List RawRow) : String :=
  "Total: " ++ formatFixed2 (rows.foldl (fun acc r => acc + r.amount) 0)

/-- The standard output of `query_and_print` (`main.rs:188-218`): header,
one line per row, total. The row sequence stands for what the store returns
for the resolved range (the Transaction Source is an external collaborator). -/
def query_and_print_lines (rows : List RawRow) : List String :=
  header :: rows.map formatRow ++ [totalLine rows]

/-- Observable outcome of a run: exit status, stdout lines, stderr lines. -/
structure RunResult where
  exitCode : Nat
  stdoutLines : List String
  stderrLines : List String
deriving DecidableEq

/-- Model of `main` (`main.rs:326-337`) after the file check: `init_config`
resolves the range (a date error prints its diagnostic to stderr and exits
with status 1 before anything is written to stdout), then `query_and_print`
emits the report. -/
def runProgram (start_date end_date month : Option String) (now : Date)
    (rows : List RawRow) : RunResult :=
  match init_config start_date end_date month now with
  | .error (.invalidStart raw) => ⟨1, [], [startErrMsg raw]⟩
  | .error (.invalidEnd raw) => ⟨1, [], [endErrMsg raw]⟩
  | .ok _ => ⟨0, query_and_print_lines rows, []⟩

/-- Lexicographic order on dates, the calendar meaning of the range
invariant (and, on zero-padded strings, the order the SQL `BETWEEN` uses). -/
def Date.le (a b : Date) : Prop :=
  a.year < b.year ∨ (a.year = b.year ∧
    (a.month < b.month ∨ (a.month = b.month ∧ a.day ≤ b.day)))

instance (a b : Date) : Decidable (Date.le a b) := by
  unfold Date.le
  infer_instance


/-- Introduction rule for `Date.Valid` with the structure fields spelled out. -/
theorem valid_mk {y : Int} {m d : Nat} (h1 : 1 ≤ m) (h2 : m ≤ 12) (h3 : 1 ≤ d)
    (h4 : d ≤ monthLength y m) (h5 : -262144 ≤ y) (h6 : y ≤ 262143) :
    Date.Valid ⟨y, m, d⟩ :=
  ⟨h1, h2, h3, h4, h5, h6⟩

/-- `from_ymd_opt` succeeds exactly on valid triples. -/
theorem from_ymd_opt_pos (y : Int) (m d : Nat) (h : Date.Valid ⟨y, m, d⟩) :
    from_ymd_opt y m d = some ⟨y, m, d⟩ := by
  unfold from_ymd_opt
  exact if_pos h

/-- A successful `from_ymd_opt` returns its arguments, and they are valid. -/
theorem from_ymd_opt_sound {y : Int} {m d : Nat} {dt : Date}
    (h : from_ymd_opt y m d = some dt) : dt = ⟨y, m, d⟩ ∧ Date.Valid ⟨y, m, d⟩ := by
  unfold from_ymd_opt at h
  split at h
  · exact ⟨(Option.some_inj.mp h).symm, by assumption⟩
  · exact absurd h (by simp)

/-- No month has more than 31 days. -/
theorem monthLength_le_31 (y : Int) (m : Nat) : monthLength y m ≤ 31 := by
  unfold monthLength
  split <;> first | omega | (split <;> omega)

/-- Every real month (1..12) has at least one day. -/
theorem monthLength_pos (y : Int) (m : Nat) (h1 : 1 ≤ m) (h2 : m ≤ 12) :
    1 ≤ monthLength y m := by
  interval_cases m <;> simp only [monthLength] <;> first | omega | (split <;> omega)

/-- The final range check and `u32` conversion of `get_days_from_month` on a
day difference that is a month length. -/
theorem days_option_wrap {D : Int} {L : Nat} (h : D = L) (hle : L ≤ 31) :
    (if 0 ≤ D ∧ D ≤ 4294967295 then some D.toNat else none) = some L := by
  rw [if_pos ⟨by omega, by omega⟩]
  congr 1
  omega

/-- Unfolding of the leap-year test to its arithmetic content. -/
theorem leap_iff (y : Int) :
    isLeapYear y = true ↔ (y % 4 = 0 ∧ (y % 100 ≠ 0 ∨ y % 400 = 0)) := by
  unfold isLeapYear
  exact decide_eq_true_iff

/-- For months January..November the first-of-next-month difference computed
by `get_days_from_month` is the month length. -/
theorem get_days_eq_lt (y : Int) (m : Nat) (h1 : 1 ≤ m) (h2 : m ≤ 11)
    (h3 : -262144 ≤ y) (h4 : y ≤ 262143) :
    get_days_from_month? y m = some (monthLength y m) := by
  have e1 : from_ymd_opt y (m + 1) 1 = some ⟨y, m + 1, 1⟩ :=
    from_ymd_opt_pos _ _ _ (valid_mk (by omega) (by omega) (by omega)
      (monthLength_pos y (m + 1) (by omega) (by omega)) h3 h4)
  have e2 : from_ymd_opt y m 1 = some ⟨y, m, 1⟩ :=
    from_ymd_opt_pos _ _ _ (valid_mk (by omega) (by omega) (by omega)
      (monthLength_pos y m (by omega) (by omega)) h3 h4)
  have hD : toNumDays ⟨y, m + 1, 1⟩ - toNumDays ⟨y, m, 1⟩ = (monthLength y m : Int) := by
    interval_cases m <;>
      simp only [toNumDays, daysBeforeMonth, daysBeforeYear, monthLength] <;>
      (by_cases hl : isLeapYear y = true <;> simp [hl] <;> omega)
  unfold get_days_from_month?
  rw [if_neg (by omega : ¬ m = 12), if_neg (by omega : ¬ m = 12), e1, e2]
  simp only [Option.some_bind]
  exact days_option_wrap hD (monthLength_le_31 y m)

/-- For December the rollover to January of the next year yields 31, for
every year whose successor chrono can still represent. -/
theorem get_days_eq_dec (y : Int) (h3 : -262144 ≤ y) (h4 : y ≤ 262142) :
    get_days_from_month? y 12 = some (monthLength y 12) := by
  have e1 : from_ymd_opt (y + 1) 1 1 = some ⟨y + 1, 1, 1⟩ :=
    from_ymd_opt_pos _ _ _ (valid_mk (by omega) (by omega) (by omega)
      (monthLength_pos (y + 1) 1 (by omega) (by omega)) (by omega) (by omega))
  have e2 : from_ymd_opt y 12 1 = some ⟨y, 12, 1⟩ :=
    from_ymd_opt_pos _ _ _ (valid_mk (by omega) (by omega) (by omega)
      (monthLength_pos y 12 (by omega) (by omega)) h3 (by omega))
  have hD : toNumDays ⟨y + 1, 1, 1⟩ - toNumDays ⟨y, 12, 1⟩ = (monthLength y 12 : Int) := by
    simp only [toNumDays, daysBeforeMonth, daysBeforeYear, monthLength]
    have hli := leap_iff y
    by_cases hl : isLeapYear y = true <;> simp [hl] at hli ⊢ <;> omega
  show (from_ymd_opt (y + 1) 1 1).bind _ = _
  rw [e1, e2]
  simp only [Option.some_bind]
  exact days_option_wrap hD (monthLength_le_31 y 12)

/-- `get_days_from_month` computes exactly the month-length table for every
month 1..12 and every chrono-representable year, except that December of the
maximal year 262143 is excluded: there the first-of-next-month construction
fails (see the counterexample theorem for that claim). -/
theorem get_days_eq (y : Int) (m : Nat) (h1 : 1 ≤ m) (h2 : m ≤ 12)
    (h3 : -262144 ≤ y) (h4 : y ≤ 262143) (h5 : m = 12 → y ≠ 262143) :
    get_days_from_month? y m = some (monthLength y m) := by
  by_cases hm : m = 12
  · subst hm
    exact get_days_eq_dec y h3 (by have := h5 rfl; omega)
  · exact get_days_eq_lt y m h1 (by omega) h3 h4

/-- The `getD 0` wrapper agrees with the table on the same domain. -/
theorem get_days_from_month_eq (y : Int) (m : Nat) (h1 : 1 ≤ m) (h2 : m ≤ 12)
    (h3 : -262144 ≤ y) (h4 : y ≤ 262143) (h5 : m = 12 → y ≠ 262143) :
    get_days_from_month y m = monthLength y m := by
  unfold get_days_from_month
  rw [get_days_eq y m h1 h2 h3 h4 h5]
  rfl

/-- Rendering a digit then scanning it is the identity. -/
theorem charVal_digitChar : ∀ a < 10, charVal? (digitChar a) = some a := by
  decide

/-- Scanning a character as a digit determines the character. -/
theorem digitChar_charVal {c : Char} {a : Nat} (h : charVal? c = some a) :
    digitChar a = c := by
  unfold charVal? at h
  split_ifs at h <;> simp_all <;> subst h <;> rfl

/-- Digit values produced by the scanner are below ten. -/
theorem charVal_le {c : Char} {v : Nat} (h : charVal? c = some v) : v ≤ 9 := by
  unfold charVal? at h
  split_ifs at h <;> simp_all <;> omega

/-- A dash is not a digit. -/
theorem charVal_dash : charVal? '-' = none := by
  decide

/-- Evaluation of a two-digit scan: exactly two digits are consumed. -/
theorem takeDigits2_eval (a b : Nat) (rest : List Char) (ha : a ≤ 9) (hb : b ≤ 9) :
    takeDigits 2 (digitChar a :: digitChar b :: rest) = some (10 * a + b, rest) := by
  have qa := charVal_digitChar a (by omega)
  have qb := charVal_digitChar b (by omega)
  cases rest <;> simp [takeDigits, takeDigitsGo, qa, qb]

/-- Evaluation of a four-digit scan: exactly four digits are consumed. -/
theorem takeDigits4_eval (a b c d : Nat) (rest : List Char)
    (ha : a ≤ 9) (hb : b ≤ 9) (hc : c ≤ 9) (hd : d ≤ 9) :
    takeDigits 4 (digitChar a :: digitChar b :: digitChar c :: digitChar d :: rest) =
      some (10 * (10 * (10 * a + b) + c) + d, rest) := by
  have qa := charVal_digitChar a (by omega)
  have qb := charVal_digitChar b (by omega)
  have qc := charVal_digitChar c (by omega)
  have qd := charVal_digitChar d (by omega)
  cases rest <;> simp [takeDigits, takeDigitsGo, qa, qb, qc, qd]

/-- Rendered digits are not whitespace. -/
theorem digitChar_not_white (a : Nat) : isWhitespaceChar (digitChar a) = false := by
  unfold digitChar
  split <;> decide

/-- Rendered digits are not the dash literal. -/
theorem digitChar_ne_dash (a : Nat) : digitChar a ≠ '-' := by
  unfold digitChar
  split <;> decide

/-- Rendered digits are not a plus sign. -/
theorem digitChar_ne_plus (a : Nat) : digitChar a ≠ '+' := by
  unfold digitChar
  split <;> decide

/-- A digit character is neither whitespace nor a sign. -/
theorem charVal_not_special {c : Char} {a : Nat} (h : charVal? c = some a) :
    isWhitespaceChar c = false ∧ c ≠ '-' ∧ c ≠ '+' := by
  have e := digitChar_charVal h
  exact e ▸ ⟨digitChar_not_white a, digitChar_ne_dash a, digitChar_ne_plus a⟩

/-- The whitespace skip stops at a non-whitespace character. -/
theorem skipWhite_cons {c : Char} {cs : List Char} (h : isWhitespaceChar c = false) :
    skipWhite (c :: cs) = c :: cs := by
  simp [skipWhite, h]

/-- The unbounded scan consumes a four-digit zero-padded run up to a
following non-digit. -/
theorem takeDigitsAll1_pad4 (n : Nat) (hn : n ≤ 9999) (c : Char) (cs : List Char)
    (hc : charVal? c = none) :
    takeDigitsAll1 (pad4L n ++ c :: cs) = some (n, c :: cs) := by
  have q1 := charVal_digitChar (n / 1000) (by omega)
  have q2 := charVal_digitChar (n / 100 % 10) (by omega)
  have q3 := charVal_digitChar (n / 10 % 10) (by omega)
  have q4 := charVal_digitChar (n % 10) (by omega)
  simp [pad4L, takeDigitsAll1, takeDigitsAll, q1, q2, q3, q4, hc]
  omega

/-- The unbounded scan consumes a five-digit run up to a non-digit. -/
theorem takeDigitsAll1_d5 (n : Nat) (h1 : 10000 ≤ n) (h2 : n < 100000)
    (c : Char) (cs : List Char) (hc : charVal? c = none) :
    takeDigitsAll1 ((digitChar (n / 10000) :: pad4L (n % 10000)) ++ c :: cs) =
      some (n, c :: cs) := by
  have q0 := charVal_digitChar (n / 10000) (by omega)
  have q1 := charVal_digitChar (n % 10000 / 1000) (by omega)
  have q2 := charVal_digitChar (n % 10000 / 100 % 10) (by omega)
  have q3 := charVal_digitChar (n % 10000 / 10 % 10) (by omega)
  have q4 := charVal_digitChar (n % 10000 % 10) (by omega)
  simp [pad4L, takeDigitsAll1, takeDigitsAll, q0, q1, q2, q3, q4, hc]
  omega

/-- The unbounded scan consumes a six-digit run up to a non-digit. -/
theorem takeDigitsAll1_d6 (n : Nat) (h1 : 100000 ≤ n) (h2 : n < 1000000)
    (c : Char) (cs : List Char) (hc : charVal? c = none) :
    takeDigitsAll1 ((digitChar (n / 100000) :: digitChar (n / 10000 % 10) ::
        pad4L (n % 10000)) ++ c :: cs) = some (n, c :: cs) := by
  have q0 := charVal_digitChar (n / 100000) (by omega)
  have q00 := charVal_digitChar (n / 10000 % 10) (by omega)
  have q1 := charVal_digitChar (n % 10000 / 1000) (by omega)
  have q2 := charVal_digitChar (n % 10000 / 100 % 10) (by omega)
  have q3 := charVal_digitChar (n % 10000 / 10 % 10) (by omega)
  have q4 := charVal_digitChar (n % 10000 % 10) (by omega)
  simp [pad4L, takeDigitsAll1, takeDigitsAll, q0, q00, q1, q2, q3, q4, hc]
  omega

/-- The unbounded scan reads back any `{:+05}`-style digit run. -/
theorem takeDigitsAll1_digitsMin4 (n : Nat) (hn : n < 1000000) (c : Char)
    (cs : List Char) (hc : charVal? c = none) :
    takeDigitsAll1 (digitsMin4 n ++ c :: cs) = some (n, c :: cs) := by
  unfold digitsMin4
  split_ifs with h1 h2
  · exact takeDigitsAll1_pad4 n (by omega) c cs hc
  · exact takeDigitsAll1_d5 n (by omega) (by omega) c cs hc
  · exact takeDigitsAll1_d6 n (by omega) (by omega) c cs hc

/-- A serialized year never begins with whitespace. -/
theorem skipWhite_yearChars (y : Int) (rest : List Char) :
    skipWhite (yearChars y ++ rest) = yearChars y ++ rest := by
  unfold yearChars
  split_ifs with h1 h2
  · exact skipWhite_cons (digitChar_not_white _)
  · exact skipWhite_cons (by decide)
  · exact skipWhite_cons (by decide)

/-- The year scanner reads back every serialized chrono year, signed or
zero-padded, up to a following non-digit. -/
theorem parseYear_yearChars (y : Int) (h1 : -262144 ≤ y) (h2 : y ≤ 262143)
    (c : Char) (cs : List Char) (hc : charVal? c = none) :
    parseYear (yearChars y ++ c :: cs) = some (y, c :: cs) := by
  unfold yearChars
  split_ifs with hy hneg
  · have hn : y.toNat ≤ 9999 := by omega
    show parseYear (digitChar (y.toNat / 1000) :: digitChar (y.toNat / 100 % 10) ::
        digitChar (y.toNat / 10 % 10) :: digitChar (y.toNat % 10) :: c :: cs) = _
    simp only [parseYear]
    rw [if_neg (digitChar_ne_dash _), if_neg (digitChar_ne_plus _),
      takeDigits4_eval _ _ _ _ _ (by omega) (by omega) (by omega) (by omega)]
    simp only [Option.map_some', Option.some.injEq, Prod.mk.injEq]
    exact ⟨by omega, trivial⟩
  · have hn : y.natAbs < 1000000 := by omega
    show parseYear ('-' :: (digitsMin4 y.natAbs ++ c :: cs)) = _
    simp only [parseYear]
    rw [if_pos trivial, takeDigitsAll1_digitsMin4 _ hn c cs hc]
    simp only [Option.map_some', Option.some.injEq, Prod.mk.injEq]
    exact ⟨by omega, trivial⟩
  · have hn : y.natAbs < 1000000 := by omega
    show parseYear ('+' :: (digitsMin4 y.natAbs ++ c :: cs)) = _
    simp only [parseYear]
    rw [if_neg (show ('+' : Char) = '-' -> False from by decide), if_pos trivial,
      takeDigitsAll1_digitsMin4 _ hn c cs hc]
    simp only [Option.map_some', Option.some.injEq, Prod.mk.injEq]
    exact ⟨by omega, trivial⟩

/-- The month-and-day tail of the parser reads back two serialized two-digit
fields and hands the triple to the validity check. -/
theorem parse_tail_eval (y : Int) (m d : Nat) (hm9 : m ≤ 99) (hd9 : d ≤ 99) :
    ((takeDigits 2 (skipWhite (pad2L m ++ '-' :: pad2L d))).bind fun mr =>
      (expectDash mr.2).bind fun r4 =>
        (takeDigits 2 (skipWhite r4)).bind fun dr =>
          if dr.2 = [] then from_ymd_opt y mr.1 dr.1 else none) =
      from_ymd_opt y m d := by
  rw [show skipWhite (pad2L m ++ '-' :: pad2L d) =
      digitChar (m / 10) :: digitChar (m % 10) :: '-' :: pad2L d from
    skipWhite_cons (digitChar_not_white _)]
  rw [takeDigits2_eval _ _ _ (by omega) (by omega)]
  simp only [Option.some_bind]
  rw [show expectDash ('-' :: pad2L d) = some (pad2L d) from rfl]
  simp only [Option.some_bind]
  rw [show skipWhite (pad2L d) = digitChar (d / 10) :: digitChar (d % 10) :: [] from
    skipWhite_cons (digitChar_not_white _)]
  rw [takeDigits2_eval _ _ _ (by omega) (by omega)]
  simp only [Option.some_bind, eq_self_iff_true, if_true]
  rw [show 10 * (m / 10) + m % 10 = m from by omega,
    show 10 * (d / 10) + d % 10 = d from by omega]

/-- Serializing a valid date and parsing it back is the identity, for every
chrono-representable year: the core of the round-trip property and of the
defaulted-date paths of `init_config`. -/
theorem parse_dateToString (y : Int) (m d : Nat) (hv : Date.Valid ⟨y, m, d⟩) :
    parseFromStrYmd (dateToString ⟨y, m, d⟩) = some ⟨y, m, d⟩ := by
  have hm2 : m ≤ 12 := hv.2.1
  have hd2 : d ≤ monthLength y m := hv.2.2.2.1
  have hd31 : d ≤ 31 := le_trans hd2 (monthLength_le_31 y m)
  have hy1 : -262144 ≤ y := hv.2.2.2.2.1
  have hy2 : y ≤ 262143 := hv.2.2.2.2.2
  have hdata : (dateToString ⟨y, m, d⟩).data =
      yearChars y ++ '-' :: (pad2L m ++ '-' :: pad2L d) := by
    show yearChars y ++ ['-'] ++ pad2L m ++ ['-'] ++ pad2L d = _
    simp
  unfold parseFromStrYmd
  rw [hdata, skipWhite_yearChars, parseYear_yearChars y hy1 hy2 '-' _ charVal_dash]
  simp only [Option.some_bind]
  rw [show expectDash ('-' :: (pad2L m ++ '-' :: pad2L d)) =
      some (pad2L m ++ '-' :: pad2L d) from rfl]
  simp only [Option.some_bind]
  rw [parse_tail_eval y m d (by omega) (by omega)]
  exact from_ymd_opt_pos _ _ _ hv

/-- The accumulator bound of the digit scanner: `fuel` further digits
multiply the headroom by at most `10 ^ fuel`. -/
theorem takeDigitsGo_lt : ∀ (fuel acc : Nat) (cs : List Char),
    (takeDigitsGo fuel acc cs).1 < (acc + 1) * 10 ^ fuel := by
  intro fuel
  induction fuel with
  | zero =>
    intro acc cs
    cases cs <;> simp [takeDigitsGo]
  | succ n ih =>
    intro acc cs
    have hbase : acc < (acc + 1) * 10 ^ (n + 1) := by
      have h1 : 1 ≤ 10 ^ (n + 1) := Nat.one_le_pow _ _ (by norm_num)
      calc acc < acc + 1 := by omega
        _ = (acc + 1) * 1 := by ring
        _ ≤ (acc + 1) * 10 ^ (n + 1) := Nat.mul_le_mul_left _ h1
    cases cs with
    | nil => simpa [takeDigitsGo] using hbase
    | cons c cs =>
      simp only [takeDigitsGo]
      cases hc : charVal? c with
      | none => simpa using hbase
      | some v =>
        simp only []
        have h1 := ih (10 * acc + v) cs
        have hv := charVal_le hc
        have hstep : (10 * acc + v + 1) * 10 ^ n ≤ (acc + 1) * 10 ^ (n + 1) := by
          have hc10 : 10 * acc + v + 1 ≤ (acc + 1) * 10 := by omega
          calc (10 * acc + v + 1) * 10 ^ n ≤ (acc + 1) * 10 * 10 ^ n :=
                Nat.mul_le_mul_right _ hc10
            _ = (acc + 1) * 10 ^ (n + 1) := by ring
        exact lt_of_lt_of_le h1 hstep

/-- A scan of width `w + 1` yields a value below `10 ^ (w + 1)`. -/
theorem takeDigits_lt {w : Nat} {cs : List Char} {p : Nat × List Char}
    (h : takeDigits (w + 1) cs = some p) : p.1 < 10 ^ (w + 1) := by
  cases cs with
  | nil => exact absurd h (by simp [takeDigits])
  | cons c rest =>
    simp only [takeDigits] at h
    cases hc : charVal? c with
    | none => simp [hc] at h
    | some v =>
      simp only [hc, Nat.add_sub_cancel, Option.some.injEq] at h
      subst h
      have hb := takeDigitsGo_lt w v rest
      have hv : v ≤ 9 := charVal_le hc
      have hle : (v + 1) * 10 ^ w ≤ 10 ^ (w + 1) := by
        have h10 : v + 1 ≤ 10 := by omega
        calc (v + 1) * 10 ^ w ≤ 10 * 10 ^ w := Nat.mul_le_mul_right _ h10
          _ = 10 ^ (w + 1) := by ring
      exact lt_of_lt_of_le hb hle

/-- A date accepted by the parser is a valid chrono date. -/
theorem parse_sound {s : String} {dt : Date} (h : parseFromStrYmd s = some dt) :
    Date.Valid dt := by
  unfold parseFromStrYmd at h
  cases h4 : parseYear (skipWhite s.data) with
  | none => rw [h4] at h; exact absurd h (by simp)
  | some yr =>
    rw [h4] at h
    simp only [Option.some_bind] at h
    cases hda : expectDash yr.2 with
    | none => rw [hda] at h; exact absurd h (by simp)
    | some r2 =>
      rw [hda] at h
      simp only [Option.some_bind] at h
      cases hm : takeDigits 2 (skipWhite r2) with
      | none => rw [hm] at h; exact absurd h (by simp)
      | some mr =>
        rw [hm] at h
        simp only [Option.some_bind] at h
        cases hdb : expectDash mr.2 with
        | none => rw [hdb] at h; exact absurd h (by simp)
        | some r4 =>
          rw [hdb] at h
          simp only [Option.some_bind] at h
          cases hd : takeDigits 2 (skipWhite r4) with
          | none => rw [hd] at h; exact absurd h (by simp)
          | some dr =>
            rw [hd] at h
            simp only [Option.some_bind] at h
            split at h
            · have hs := from_ymd_opt_sound h
              exact hs.1 ▸ hs.2
            · exact absurd h (by simp)

/-- A successful lookup returns one of the stored values. -/
theorem lookupMonth_mem {k : String} {v : Nat} :
    ∀ {l : List (String × Nat)}, lookupMonth k l = some v → v ∈ l.map Prod.snd := by
  intro l
  induction l with
  | nil => intro h; exact absurd h (by simp [lookupMonth])
  | cons a t ih =>
    obtain ⟨a1, a2⟩ := a
    intro h
    simp only [lookupMonth] at h
    split at h
    · simp only [Option.some.injEq] at h
      simp [h]
    · simp only [List.map_cons, List.mem_cons]
      exact Or.inr (ih h)

/-- Every value stored in the month table is a month number. -/
theorem months_vals : ∀ v ∈ months.map Prod.snd, 1 ≤ v ∧ v ≤ 12 := by
  decide

/-- Whatever `parse_month` accepts — name or number — is in 1..12. -/
theorem parse_month_range {x : Option String} {m : Nat}
    (h : parse_month x = some m) : 1 ≤ m ∧ m ≤ 12 := by
  cases x with
  | none => exact absurd h (by simp [parse_month])
  | some t =>
    simp only [parse_month] at h
    cases hl : lookupMonth (toLowerStr t) months with
    | some v =>
      rw [hl] at h
      simp only [Option.some.injEq] at h
      subst h
      exact months_vals v (lookupMonth_mem hl)
    | none =>
      rw [hl] at h
      cases hp : parseU8 t with
      | none => rw [hp] at h; exact absurd h (by simp [Option.filter])
      | some v =>
        rw [hp] at h
        simp only [Option.filter] at h
        split at h
        · simp only [Option.some.injEq] at h
          subst h
          simp_all
        · exact absurd h (by simp)

/-- A dash-free character list is a single piece. -/
theorem splitOnDash_no_dash : ∀ cs : List Char, '-' ∉ cs → splitOnDash cs = [cs] := by
  intro cs
  induction cs with
  | nil => intro _; rfl
  | cons c t ih =>
    intro h
    have hc : ¬ c = '-' := fun e => h (by simp [e])
    have ht : splitOnDash t = [t] := ih fun hm => h (List.mem_cons_of_mem _ hm)
    simp [splitOnDash, ht, hc]

/-- `process_date` returns a dash-free string unchanged. -/
theorem process_date_no_dash (s : String) (h : '-' ∉ s.data) : process_date s = s := by
  unfold process_date
  rw [splitOnDash_no_dash s.data h]
  simp [List.intercalate]

/-- For two-digit values the `{:02}` rendering is the exactly-two-digit
zero-padded numeral. -/
theorem fmt02_eq_twoDigits : ∀ n : Nat, n ≤ 99 → fmt02 (n : Int) = twoDigits n := by
  decide

/-- On nonnegative input the truncation-based `fract` agrees with the
floor-based fractional part, hence is nonnegative and below one. -/
theorem fract_nonneg_lt_one {x : ℚ} (h : 0 ≤ x) : 0 ≤ fract x ∧ fract x < 1 := by
  unfold fract
  rw [if_pos h]
  constructor
  · have := Int.floor_le x
    linarith
  · have := Int.lt_floor_add_one x
    linarith

/-- Away-from-zero rounding of a nonnegative value is nonnegative. -/
theorem roundTiesAway_nonneg {x : ℚ} (h : 0 ≤ x) : 0 ≤ roundTiesAway x := by
  unfold roundTiesAway
  rw [if_pos h]
  have : (0 : ℚ) ≤ x + 1 / 2 := by linarith
  exact Int.le_floor.mpr (by exact_mod_cast this)

/-- Month mode: a recognized month token fixes the result, whatever the
explicit date inputs are. -/
theorem init_config_dates_month {mo : Option String} {m : Nat} (s e : Option String)
    (now : Date) (hm : parse_month mo = some m) :
    init_config_dates s e mo now =
      .ok (⟨now.year, m, 1⟩, ⟨now.year, m, get_days_from_month now.year m⟩) := by
  simp only [init_config_dates, hm]

/-- In explicit/default mode with no explicit end date, a successful
resolution yields a valid start date and, as end date, the last day of the
month containing it. -/
theorem default_end_shape {s mo : Option String} {now : Date} {d1 d2 : Date}
    (hm : parse_month mo = none)
    (hok : init_config_dates s none mo now = .ok (d1, d2)) :
    Date.Valid d1 ∧ d2 = ⟨d1.year, d1.month, monthLength d1.year d1.month⟩ := by
  simp only [init_config_dates, hm] at hok
  split at hok
  · exact absurd hok (by simp)
  · rename_i ps hps
    have hv := parse_sound hps
    have hm1 : 1 ≤ ps.month := hv.1
    have hm2 : ps.month ≤ 12 := hv.2.1
    have hy1 : -262144 ≤ ps.year := hv.2.2.2.2.1
    have hy2 : ps.year ≤ 262143 := hv.2.2.2.2.2
    have h5 : ps.month = 12 → ps.year ≠ 262143 := by
      intro h12 hY
      have hes0 : endString none ps = dateToString ⟨(262143 : Int), 12, 0⟩ := by
        unfold endString
        rw [h12, hY]
        rfl
      rw [hes0] at hok
      rw [show parseFromStrYmd (dateToString ⟨(262143 : Int), 12, 0⟩) = none from rfl]
        at hok
      exact absurd hok (by simp)
    have hgd : get_days_from_month ps.year ps.month = monthLength ps.year ps.month :=
      get_days_from_month_eq _ _ hm1 hm2 hy1 hy2 h5
    have hes : endString none ps =
        dateToString ⟨ps.year, ps.month, monthLength ps.year ps.month⟩ := by
      simp [endString, hgd]
    rw [hes] at hok
    have hvz : Date.Valid ⟨ps.year, ps.month, monthLength ps.year ps.month⟩ :=
      valid_mk hm1 hm2 (monthLength_pos _ _ hm1 hm2) (le_refl _) hy1 hy2
    rw [parse_dateToString _ _ _ hvz] at hok
    simp only [Except.ok.injEq, Prod.mk.injEq] at hok
    obtain ⟨h1, h2⟩ := hok
    subst h1
    exact ⟨hv, h2.symm⟩

/-- C1 counterexample: with both explicit dates supplied and reversed, the
resolver returns successfully with `start_date > end_date`; no ordering
check exists in `init_config`. -/
theorem dateRange_order_cex :
    init_config_dates (some "2024-02-02") (some "2024-02-01") none ⟨2024, 3, 15⟩ =
      .ok (⟨2024, 2, 2⟩, ⟨2024, 2, 1⟩) ∧
    ¬ Date.le ⟨2024, 2, 2⟩ ⟨2024, 2, 1⟩ :=
  ⟨rfl, by decide⟩

/-- C1 (amended): `start_date ≤ end_date` holds for every successful
resolution in month mode (for a clock year chrono can roll over) and in
explicit/default mode whenever the end date is defaulted; when an explicit
end date is supplied no ordering check is performed (see the counterexample). -/
theorem dateRange_order_amended :
    ∀ (s e mo : Option String) (now : Date) (d1 d2 : Date),
      (∀ m, parse_month mo = some m → -262144 ≤ now.year ∧ now.year ≤ 262142) →
      (parse_month mo = none → e = none) →
      init_config_dates s e mo now = .ok (d1, d2) →
      Date.le d1 d2 := by
  intro s e mo now d1 d2 hyear hend hok
  cases hm : parse_month mo with
  | some m =>
    obtain ⟨hy1, hy2⟩ := hyear m hm
    obtain ⟨hm1, hm2⟩ := parse_month_range hm
    rw [init_config_dates_month s e now hm] at hok
    have hgd : get_days_from_month now.year m = monthLength now.year m :=
      get_days_from_month_eq _ _ hm1 hm2 hy1 (by omega) (by omega)
    simp only [Except.ok.injEq, Prod.mk.injEq] at hok
    obtain ⟨h1, h2⟩ := hok
    subst h1
    subst h2
    exact Or.inr ⟨rfl, Or.inr ⟨rfl, by
      rw [hgd]
      exact monthLength_pos _ _ hm1 hm2⟩⟩
  | none =>
    have he := hend hm
    subst he
    obtain ⟨hv, h2⟩ := default_end_shape hm hok
    subst h2
    exact Or.inr ⟨rfl, Or.inr ⟨rfl, hv.2.2.2.1⟩⟩

/-- C1 amended, witnessed at a defaulted end date: start 2024-02-15 resolves
with end 2024-02-29 and the order holds. -/
theorem dateRange_order_amended_witness :
    init_config_dates (some "2024-02-15") none none ⟨2024, 3, 15⟩ =
      .ok (⟨2024, 2, 15⟩, ⟨2024, 2, 29⟩) ∧
    Date.le ⟨2024, 2, 15⟩ ⟨2024, 2, 29⟩ :=
  ⟨rfl, dateRange_order_amended (some "2024-02-15") none none ⟨2024, 3, 15⟩
    ⟨2024, 2, 15⟩ ⟨2024, 2, 29⟩ (fun m hm => by simp [parse_month] at hm)
    (fun _ => rfl) rfl⟩

/-- Round trip for a whole `Date` value. -/
theorem parse_dateToString_date (D : Date) (hv : Date.Valid D) :
    parseFromStrYmd (dateToString D) = some D := by
  obtain ⟨y, m, d⟩ := D
  exact parse_dateToString y m d hv

/-- The default start date is valid with a four-digit year whenever the
clock date is (chrono years up to 9999, the program's operating range). -/
theorem defaultStartDate_valid (now : Date) (hv : Date.Valid now) (h1 : 1 ≤ now.year)
    (h9 : now.year ≤ 9999) :
    Date.Valid (defaultStartDate now) ∧ 0 ≤ (defaultStartDate now).year ∧
      (defaultStartDate now).year ≤ 9999 := by
  obtain ⟨hm1, hm2, _, _, _, _⟩ := hv
  unfold defaultStartDate
  split
  · exact ⟨valid_mk (by omega) (by omega) (by omega)
      (monthLength_pos _ 12 (by omega) (by omega)) (by omega) (by omega),
      by simp; omega, by simp; omega⟩
  · exact ⟨valid_mk (by omega) (by omega) (by omega)
      (monthLength_pos _ _ (by omega) (by omega)) (by omega) (by omega),
      by simp; omega, by simp; omega⟩

/-- C2: month mode resolves to the first and last day of the token's month
in the clock year, ignoring any explicit start or end inputs; in particular
`now` 2024-03-15 with token "february" yields (2024-02-01, 2024-02-29). -/
theorem month_mode_resolution :
    (∀ (t : String) (m : Nat) (s e : Option String) (now : Date),
      -262144 ≤ now.year → now.year ≤ 262142 →
      parse_month (some t) = some m →
      init_config_dates s e (some t) now =
        .ok (⟨now.year, m, 1⟩, ⟨now.year, m, monthLength now.year m⟩)) ∧
    init_config none none (some "february") ⟨2024, 3, 15⟩ =
      .ok ("2024-02-01", "2024-02-29") := by
  constructor
  · intro t m s e now hy1 hy2 hm
    rw [init_config_dates_month s e now hm]
    obtain ⟨hm1, hm2⟩ := parse_month_range hm
    rw [get_days_from_month_eq _ _ hm1 hm2 hy1 (by omega) (by omega)]
  · rfl

/-- C2 witness: numeric token "7" overrides both explicit dates. -/
theorem month_mode_resolution_witness :
    parse_month (some "7") = some 7 ∧
    init_config_dates (some "2099-01-01") (some "1999-01-01") (some "7") ⟨2024, 3, 15⟩ =
      .ok (⟨2024, 7, 1⟩, ⟨2024, 7, monthLength 2024 7⟩) :=
  ⟨rfl, month_mode_resolution.1 "7" 7 (some "2099-01-01") (some "1999-01-01")
    ⟨2024, 3, 15⟩ (by decide) (by decide) rfl⟩

/-- C3: with no inputs the resolved range is the previous calendar month —
December of the previous year when the clock month is January — and, with an
explicit start but no end, the end defaults to the last day of the start's
month; in particular `now` 2024-01-10 yields (2023-12-01, 2023-12-31). -/
theorem default_mode_resolution :
    (∀ now : Date, Date.Valid now → 1 ≤ now.year → now.year ≤ 9999 →
      init_config_dates none none none now =
        .ok (defaultStartDate now,
          ⟨(defaultStartDate now).year, (defaultStartDate now).month,
            monthLength (defaultStartDate now).year (defaultStartDate now).month⟩)) ∧
    (∀ (s : String) (now : Date) (d1 d2 : Date),
      init_config_dates (some s) none none now = .ok (d1, d2) →
      d2 = ⟨d1.year, d1.month, monthLength d1.year d1.month⟩) ∧
    init_config none none none ⟨2024, 1, 10⟩ = .ok ("2023-12-01", "2023-12-31") := by
  refine ⟨?_, fun s now d1 d2 h =>
    (default_end_shape (show parse_month none = none from rfl) h).2, rfl⟩
  intro now hv h1 h9
  obtain ⟨hvd, hd0, hd9⟩ := defaultStartDate_valid now hv h1 h9
  have hdm1 : 1 ≤ (defaultStartDate now).month := hvd.1
  have hdm2 : (defaultStartDate now).month ≤ 12 := hvd.2.1
  have hps : parseFromStrYmd (startString none now) = some (defaultStartDate now) :=
    parse_dateToString_date _ hvd
  have hgd : get_days_from_month (defaultStartDate now).year (defaultStartDate now).month =
      monthLength (defaultStartDate now).year (defaultStartDate now).month :=
    get_days_from_month_eq _ _ hdm1 hdm2 (by omega) (by omega) (by omega)
  have hvE : Date.Valid ⟨(defaultStartDate now).year, (defaultStartDate now).month,
      monthLength (defaultStartDate now).year (defaultStartDate now).month⟩ :=
    valid_mk hdm1 hdm2 (monthLength_pos _ _ hdm1 hdm2) (le_refl _) (by omega) (by omega)
  have hpe : parseFromStrYmd (endString none (defaultStartDate now)) =
      some ⟨(defaultStartDate now).year, (defaultStartDate now).month,
        monthLength (defaultStartDate now).year (defaultStartDate now).month⟩ := by
    have he : endString none (defaultStartDate now) =
        dateToString ⟨(defaultStartDate now).year, (defaultStartDate now).month,
          monthLength (defaultStartDate now).year (defaultStartDate now).month⟩ := by
      simp [endString, hgd]
    rw [he]
    exact parse_dateToString_date _ hvE
  show (match parseFromStrYmd (startString none now) with
        | none => Except.error (DateError.invalidStart (startString none now))
        | some ps =>
          match parseFromStrYmd (endString none ps) with
          | none => Except.error (DateError.invalidEnd (endString none ps))
          | some pe => Except.ok (ps, pe)) = _
  rw [hps]
  show (match parseFromStrYmd (endString none (defaultStartDate now)) with
        | none => Except.error (DateError.invalidEnd (endString none (defaultStartDate now)))
        | some pe => Except.ok (defaultStartDate now, pe)) = _
  rw [hpe]

/-- C3 witness for the universal parts, at `now` 2024-01-10 (January, so the
default start rolls back to December of 2023) and at an explicit start. -/
theorem default_mode_resolution_witness :
    Date.Valid ⟨2024, 1, 10⟩ ∧
    init_config_dates none none none ⟨2024, 1, 10⟩ =
      .ok (defaultStartDate ⟨2024, 1, 10⟩,
        ⟨(defaultStartDate ⟨2024, 1, 10⟩).year, (defaultStartDate ⟨2024, 1, 10⟩).month,
          monthLength (defaultStartDate ⟨2024, 1, 10⟩).year
            (defaultStartDate ⟨2024, 1, 10⟩).month⟩) ∧
    init_config_dates (some "2023-05-07") none none ⟨2024, 1, 10⟩ =
      .ok (⟨2023, 5, 7⟩, ⟨2023, 5, 31⟩) ∧
    (⟨2023, 5, 31⟩ : Date) = ⟨(2023 : Int), 5, monthLength 2023 5⟩ :=
  ⟨by decide,
   default_mode_resolution.1 ⟨2024, 1, 10⟩ (by decide) (by decide) (by decide),
   rfl,
   default_mode_resolution.2.1 "2023-05-07" ⟨2024, 1, 10⟩ ⟨2023, 5, 7⟩ ⟨2023, 5, 31⟩ rfl⟩

/-- C4: the first-of-next-month day difference computed by
`get_days_from_month` equals the month-length table — 28/29/30/31 with leap
years handled — for every month 1..12 and every chrono-representable year on
which the function returns; in particular 29 for 2024-02, 28 for 2023-02 and
31 for 2023-12. -/
theorem days_in_month_values :
    (∀ (y : Int) (m : Nat), 1 ≤ m → m ≤ 12 → -262144 ≤ y → y ≤ 262143 →
      (m = 12 → y ≠ 262143) →
      get_days_from_month? y m = some (monthLength y m)) ∧
    get_days_from_month 2024 2 = 29 ∧ get_days_from_month 2023 2 = 28 ∧
    get_days_from_month 2023 12 = 31 :=
  ⟨get_days_eq, by decide, by decide, by decide⟩

/-- C4 witness at year 2024, month 2 (a leap February). -/
theorem days_in_month_values_witness :
    ((1 : Nat) ≤ 2 ∧ (2 : Nat) ≤ 12 ∧ -262144 ≤ (2024 : Int) ∧ (2024 : Int) ≤ 262143) ∧
    get_days_from_month? 2024 2 = some (monthLength 2024 2) :=
  ⟨by decide, days_in_month_values.1 2024 2 (by decide) (by decide) (by decide)
    (by decide) (by decide)⟩

/-- C5 counterexample: the year 262143 is representable — `from_ymd_opt`
accepts 262143-12-01 — yet `get_days_from_month` on its December must build
262144-01-01, which is out of range, so the `expect` aborts instead of
returning normally. -/
theorem days_in_month_no_abort_cex :
    from_ymd_opt 262143 12 1 = some ⟨262143, 12, 1⟩ ∧
    get_days_from_month? 262143 12 = none := by
  constructor <;> decide

/-- C5 (amended): for every month 1..12 and every chrono-representable year,
except December of the maximal year 262143, `get_days_from_month` returns
normally — both date constructions and the `u32` conversion succeed. -/
theorem days_in_month_no_abort_amended :
    ∀ (y : Int) (m : Nat), 1 ≤ m → m ≤ 12 → -262144 ≤ y → y ≤ 262143 →
    (m = 12 → y ≠ 262143) → (get_days_from_month? y m).isSome = true := by
  intro y m h1 h2 h3 h4 h5
  rw [get_days_eq y m h1 h2 h3 h4 h5]
  rfl

/-- C5 amended witness: December still works one year below the maximum. -/
theorem days_in_month_no_abort_amended_witness :
    ((1 : Nat) ≤ 12 ∧ (262142 : Int) ≤ 262143 ∧ ((12 : Nat) = 12 → (262142 : Int) ≠ 262143)) ∧
    (get_days_from_month? 262142 12).isSome = true :=
  ⟨by decide, days_in_month_no_abort_amended 262142 12 (by decide) (by decide)
    (by decide) (by decide) (by decide)⟩

/-- C6: parsing a valid zero-padded `YYYY-MM-DD` string and re-serializing
it yields the identical string, and non-zero-padded valid inputs are
normalized by the resolver — for the start date and for the end date. -/
theorem date_string_roundtrip :
    (∀ (c1 c2 c3 c4 c5 c6 c7 c8 : Char) (a1 a2 a3 a4 a5 a6 a7 a8 : Nat) (dt : Date),
      charVal? c1 = some a1 → charVal? c2 = some a2 → charVal? c3 = some a3 →
      charVal? c4 = some a4 → charVal? c5 = some a5 → charVal? c6 = some a6 →
      charVal? c7 = some a7 → charVal? c8 = some a8 →
      parseFromStrYmd (String.mk [c1, c2, c3, c4, '-', c5, c6, '-', c7, c8]) = some dt →
      dateToString dt = String.mk [c1, c2, c3, c4, '-', c5, c6, '-', c7, c8]) ∧
    init_config (some "2023-2-1") none none ⟨2024, 3, 15⟩ =
      .ok ("2023-02-01", "2023-02-28") ∧
    init_config (some "2023-02-01") (some "2023-2-1") none ⟨2024, 3, 15⟩ =
      .ok ("2023-02-01", "2023-02-01") := by
  refine ⟨?_, rfl, rfl⟩
  intro c1 c2 c3 c4 c5 c6 c7 c8 a1 a2 a3 a4 a5 a6 a7 a8 dt
  intro h1 h2 h3 h4 h5 h6 h7 h8 hp
  have hv1 : a1 ≤ 9 := charVal_le h1
  have hv2 : a2 ≤ 9 := charVal_le h2
  have hv3 : a3 ≤ 9 := charVal_le h3
  have hv4 : a4 ≤ 9 := charVal_le h4
  have hv5 : a5 ≤ 9 := charVal_le h5
  have hv6 : a6 ≤ 9 := charVal_le h6
  have hv7 : a7 ≤ 9 := charVal_le h7
  have hv8 : a8 ≤ 9 := charVal_le h8
  have e1 : c1 = digitChar a1 := (digitChar_charVal h1).symm
  have e2 : c2 = digitChar a2 := (digitChar_charVal h2).symm
  have e3 : c3 = digitChar a3 := (digitChar_charVal h3).symm
  have e4 : c4 = digitChar a4 := (digitChar_charVal h4).symm
  have e5 : c5 = digitChar a5 := (digitChar_charVal h5).symm
  have e6 : c6 = digitChar a6 := (digitChar_charVal h6).symm
  have e7 : c7 = digitChar a7 := (digitChar_charVal h7).symm
  have e8 : c8 = digitChar a8 := (digitChar_charVal h8).symm
  subst e1 e2 e3 e4 e5 e6 e7 e8
  unfold parseFromStrYmd at hp
  rw [show (String.mk [digitChar a1, digitChar a2, digitChar a3, digitChar a4, '-',
      digitChar a5, digitChar a6, '-', digitChar a7, digitChar a8]).data =
      digitChar a1 :: digitChar a2 :: digitChar a3 :: digitChar a4 :: '-' ::
      digitChar a5 :: digitChar a6 :: '-' :: digitChar a7 :: digitChar a8 :: [] from rfl,
    skipWhite_cons (digitChar_not_white a1)] at hp
  simp only [parseYear] at hp
  rw [if_neg (digitChar_ne_dash a1), if_neg (digitChar_ne_plus a1),
    takeDigits4_eval _ _ _ _ _ hv1 hv2 hv3 hv4] at hp
  simp only [Option.map_some', Option.some_bind] at hp
  rw [show expectDash ('-' :: digitChar a5 :: digitChar a6 :: '-' :: digitChar a7 ::
      digitChar a8 :: []) = some (digitChar a5 :: digitChar a6 :: '-' :: digitChar a7 ::
      digitChar a8 :: []) from rfl] at hp
  simp only [Option.some_bind] at hp
  rw [skipWhite_cons (digitChar_not_white a5), takeDigits2_eval _ _ _ hv5 hv6] at hp
  simp only [Option.some_bind] at hp
  rw [show expectDash ('-' :: digitChar a7 :: digitChar a8 :: []) =
      some (digitChar a7 :: digitChar a8 :: []) from rfl] at hp
  simp only [Option.some_bind] at hp
  rw [skipWhite_cons (digitChar_not_white a7), takeDigits2_eval _ _ _ hv7 hv8] at hp
  simp only [Option.some_bind, eq_self_iff_true, if_true] at hp
  obtain ⟨hdt, _⟩ := from_ymd_opt_sound hp
  subst hdt
  unfold dateToString yearChars
  rw [if_pos (show (0 : Int) ≤ ((10 * (10 * (10 * a1 + a2) + a3) + a4 : Nat) : Int) ∧
      ((10 * (10 * (10 * a1 + a2) + a3) + a4 : Nat) : Int) ≤ 9999 from
    ⟨by omega, by omega⟩)]
  unfold pad4L pad2L
  have hNN : ((10 * (10 * (10 * a1 + a2) + a3) + a4 : Nat) : Int).toNat =
      10 * (10 * (10 * a1 + a2) + a3) + a4 := by omega
  have q1 : (10 * (10 * (10 * a1 + a2) + a3) + a4) / 1000 = a1 := by omega
  have q2 : (10 * (10 * (10 * a1 + a2) + a3) + a4) / 100 % 10 = a2 := by omega
  have q3 : (10 * (10 * (10 * a1 + a2) + a3) + a4) / 10 % 10 = a3 := by omega
  have q4 : (10 * (10 * (10 * a1 + a2) + a3) + a4) % 10 = a4 := by omega
  have q5 : (10 * a5 + a6) / 10 = a5 := by omega
  have q6 : (10 * a5 + a6) % 10 = a6 := by omega
  have q7 : (10 * a7 + a8) / 10 = a7 := by omega
  have q8 : (10 * a7 + a8) % 10 = a8 := by omega
  simp only [hNN, q1, q2, q3, q4, q5, q6, q7, q8]
  rfl

/-- C6 witness at the zero-padded string 2023-05-07. -/
theorem date_string_roundtrip_witness :
    parseFromStrYmd (String.mk ['2', '0', '2', '3', '-', '0', '5', '-', '0', '7']) =
      some ⟨2023, 5, 7⟩ ∧
    dateToString ⟨2023, 5, 7⟩ =
      String.mk ['2', '0', '2', '3', '-', '0', '5', '-', '0', '7'] :=
  ⟨by decide, date_string_roundtrip.1 '2' '0' '2' '3' '0' '5' '0' '7'
    2 0 2 3 0 5 0 7 ⟨2023, 5, 7⟩ rfl rfl rfl rfl rfl rfl rfl rfl (by decide)⟩

/-- C7 counterexample: at amount 255/256 (a dyadic rational, so every `f64`
step of the source — `fract`, the product with 100, `round` — is exact) the
rounded value is 100 and the printed fractional field is the three digits
"100", not a two-digit field; the full output "0,100" has length five where
the claimed form "0,DD" has length four. -/
theorem amount_two_digit_cex :
    process_amount (255 / 256 : ℚ) = "0,100" ∧ ("0,100" : String).length ≠ 4 := by
  refine ⟨?_, by decide⟩
  have hf : ⌊(255 : ℚ) / 256⌋ = 0 := by norm_num [Int.floor_eq_iff]
  have hfr : fract ((255 : ℚ) / 256) = 255 / 256 := by
    unfold fract
    rw [if_pos (by norm_num), hf]
    norm_num
  have hr : roundTiesAway (100 * fract ((255 : ℚ) / 256)) = 100 := by
    rw [hfr]
    unfold roundTiesAway
    rw [if_pos (by norm_num)]
    norm_num [Int.floor_eq_iff]
  unfold process_amount
  rw [hf, hr]
  decide

/-- C7 (amended): the amount string is the floor of the amount, a comma, and
`round(100 × fract)` rendered zero-padded to at least two digits — exactly
two digits whenever that rounded value is at most 99 (it reaches 100 once
the fractional part exceeds 0.995); in particular 1234.5 gives "1234,50"
and 0.0 gives "0,00". -/
theorem amount_format_amended :
    (∀ x : ℚ, 0 ≤ x → roundTiesAway (100 * fract x) ≤ 99 →
      process_amount x = toString ⌊x⌋ ++ "," ++
        twoDigits (roundTiesAway (100 * fract x)).toNat) ∧
    process_amount (2469 / 2 : ℚ) = "1234,50" ∧ process_amount 0 = "0,00" := by
  refine ⟨?_, ?_, ?_⟩
  · intro x hx hr
    have hf0 : (0 : ℚ) ≤ fract x := (fract_nonneg_lt_one hx).1
    have h0 : 0 ≤ roundTiesAway (100 * fract x) :=
      roundTiesAway_nonneg (by positivity)
    unfold process_amount
    have ht := fmt02_eq_twoDigits (roundTiesAway (100 * fract x)).toNat (by omega)
    rw [Int.toNat_of_nonneg h0] at ht
    rw [ht]
  · have hf : ⌊(2469 : ℚ) / 2⌋ = 1234 := by norm_num [Int.floor_eq_iff]
    have hfr : fract ((2469 : ℚ) / 2) = 1 / 2 := by
      unfold fract
      rw [if_pos (by norm_num), hf]
      norm_num
    have hr : roundTiesAway (100 * fract ((2469 : ℚ) / 2)) = 50 := by
      rw [hfr]
      unfold roundTiesAway
      rw [if_pos (by norm_num)]
      norm_num [Int.floor_eq_iff]
    unfold process_amount
    rw [hf, hr]
    decide
  · have hf : ⌊(0 : ℚ)⌋ = 0 := by norm_num
    have hfr : fract 0 = 0 := by
      unfold fract
      rw [if_pos le_rfl, hf]
      norm_num
    have hr : roundTiesAway (100 * fract 0) = 0 := by
      rw [hfr]
      unfold roundTiesAway
      rw [mul_zero, if_pos le_rfl]
      norm_num [Int.floor_eq_iff]
    unfold process_amount
    rw [hf, hr]
    decide

/-- C7 amended witness at amount 0. -/
theorem amount_format_amended_witness :
    ((0 : ℚ) ≤ 0 ∧ roundTiesAway (100 * fract 0) ≤ 99) ∧
    process_amount 0 = toString ⌊(0 : ℚ)⌋ ++ "," ++
      twoDigits (roundTiesAway (100 * fract 0)).toNat := by
  have hr : roundTiesAway (100 * fract 0) = 0 := by
    have hfr : fract 0 = 0 := by
      unfold fract
      rw [if_pos le_rfl]
      norm_num
    rw [hfr]
    unfold roundTiesAway
    rw [mul_zero, if_pos le_rfl]
    norm_num [Int.floor_eq_iff]
  exact ⟨⟨le_rfl, by rw [hr]; decide⟩,
    amount_format_amended.1 0 le_rfl (by rw [hr]; decide)⟩

/-- C8: a malformed explicit start (or end) date makes the run exit with
status 1 after a single stderr line that names the raw input and the
expected `YYYY-MM-DD` format, with nothing — neither header nor rows —
printed to stdout. -/
theorem invalid_date_fatal :
    (∀ (s : String) (e mo : Option String) (now : Date) (rows : List RawRow),
      parse_month mo = none → parseFromStrYmd s = none →
      runProgram (some s) e mo now rows = ⟨1, [], [startErrMsg s]⟩) ∧
    (∀ (s e : String) (mo : Option String) (now : Date) (rows : List RawRow) (ps : Date),
      parse_month mo = none → parseFromStrYmd s = some ps → parseFromStrYmd e = none →
      runProgram (some s) (some e) mo now rows = ⟨1, [], [endErrMsg e]⟩) := by
  constructor
  · intro s e mo now rows hm hs
    have h1 : init_config_dates (some s) e mo now = .error (.invalidStart s) := by
      simp only [init_config_dates, hm]
      rw [show startString (some s) now = s from rfl, hs]
    have h2 : init_config (some s) e mo now = .error (.invalidStart s) := by
      unfold init_config
      rw [h1]
      rfl
    unfold runProgram
    rw [h2]
  · intro s e mo now rows ps hm hs he
    have h1 : init_config_dates (some s) (some e) mo now = .error (.invalidEnd e) := by
      simp only [init_config_dates, hm]
      rw [show startString (some s) now = s from rfl, hs]
      show (match parseFromStrYmd (endString (some e) ps) with
            | none => Except.error (DateError.invalidEnd (endString (some e) ps))
            | some pe => Except.ok (ps, pe)) = _
      rw [show endString (some e) ps = e from rfl, he]
    have h2 : init_config (some s) (some e) mo now = .error (.invalidEnd e) := by
      unfold init_config
      rw [h1]
      rfl
    unfold runProgram
    rw [h2]

/-- C8 witness: start "2023-13-01" (month 13) is fatal before any output,
and a bad explicit end "2023-02-30" is fatal as well. -/
theorem invalid_date_fatal_witness :
    parseFromStrYmd "2023-13-01" = none ∧
    runProgram (some "2023-13-01") none none ⟨2024, 3, 15⟩ [] =
      ⟨1, [], [startErrMsg "2023-13-01"]⟩ ∧
    runProgram (some "2023-05-01") (some "2023-02-30") none ⟨2024, 3, 15⟩ [] =
      ⟨1, [], [endErrMsg "2023-02-30"]⟩ :=
  ⟨by decide,
   invalid_date_fatal.1 "2023-13-01" none none ⟨2024, 3, 15⟩ [] rfl (by decide),
   invalid_date_fatal.2 "2023-05-01" "2023-02-30" none ⟨2024, 3, 15⟩ [] ⟨2023, 5, 1⟩
     rfl (by decide) (by decide)⟩

/-- C9 counterexample: an unrecognized token gives the same outcome as an
absent one — `parse_month` returns `None` for both, so callers cannot
distinguish "no month requested" from "invalid month". -/
theorem month_token_conflation_cex :
    parse_month (some "xyz") = parse_month none ∧ parse_month none = none := by
  constructor <;> decide

/-- C9 (amended): the two outcomes coincide rather than being distinct: for
every token that neither matches the bilingual month vocabulary (after
lowercasing) nor parses as a number in 1..12, `parse_month` returns exactly
the result it returns for an absent month, namely `none`. -/
theorem month_token_conflation_amended :
    ∀ t : String, lookupMonth (toLowerStr t) months = none →
      (parseU8 t).filter (fun v => decide (1 ≤ v ∧ v ≤ 12)) = none →
      parse_month (some t) = parse_month none := by
  intro t h1 h2
  simp only [parse_month, h1, h2]

/-- C9 amended witness at the token "xyz". -/
theorem month_token_conflation_amended_witness :
    lookupMonth (toLowerStr "xyz") months = none ∧
    parse_month (some "xyz") = parse_month none :=
  ⟨by decide, month_token_conflation_amended "xyz" (by decide) (by decide)⟩

/-- C10: the date normalizer reverses the dash-separated pieces of its input
and joins them with slashes, with no validation: a dash-free string passes
through unchanged, and inputs with one or three dashes are still reversed
and re-joined rather than rejected. -/
theorem process_date_reverses :
    (∀ s : String, '-' ∉ s.data → process_date s = s) ∧
    process_date "2023-05-07" = "07/05/2023" ∧
    process_date "2023-05" = "05/2023" ∧
    process_date "2023-05-07-08" = "08/07/05/2023" ∧
    process_date "20230507" = "20230507" :=
  ⟨process_date_no_dash, by decide, by decide, by decide, by decide⟩

/-- C10 witness: a stored value with no dash at all is passed through. -/
theorem process_date_reverses_witness :
    '-' ∉ ("20230507" : String).data ∧ process_date "20230507" = "20230507" :=
  ⟨by decide, process_date_reverses.1 "20230507" (by decide)⟩
